import Mathlib

/-!
Shallow embedding of the liquidity-depth engine of `src/server/index.js`
(the first of the file's two overlapping revisions, lines 1-1930).

Modelling conventions:
* JavaScript numbers are modelled as exact rationals (`ℚ`); `Math.floor`
  is `Int.floor`; raw on-chain amounts are integers (`ℤ`) compared against
  `Number.MAX_SAFE_INTEGER = 2^53 - 1`.
* JS `NaN`/`Infinity` cannot be produced in the modelled paths because
  every division in the source is guarded by its own positivity checks,
  with one exception: the price-impact quotient against a `null` baseline
  (lines 1209 and 1353), where JS yields `Infinity` while the `ℚ` model
  yields `0` (division by zero).  Both values are nonnegative, which is
  the only property any claim reads off that quantity.
* Exceptions are modelled by an explicit `Option JsErr` component: `some`
  means a JS exception is in flight; state mutations performed before the
  throw persist, exactly as in JS.  A `try`/`catch` is a `match` on that
  component.
* Wall-clock reads (the 120 s budget of lines 551-552, checked at lines
  711 and 913) and the pacing/backoff sleeps are outside the embedding;
  the time-budget truncation branch is modelled as never firing, and the
  sleeps are recorded as data (`waits`) rather than performed.
* Token mints are pass-through request parameters with no influence on
  any modelled observable; only the decimals (resolved by the external
  token catalog) and the direction flag reach the arithmetic.
-/

namespace Depth

/-- Model of `Number.MAX_SAFE_INTEGER` (compared at line 754). -/
def MAX_SAFE_INTEGER : ℤ := 2 ^ 53 - 1

/-- Model of `RATE_LIMIT_RETRY_DELAY = 1000` (line 53), in milliseconds. -/
def RATE_LIMIT_RETRY_DELAY : ℚ := 1000

/-- A well-formed Ultra API response body (lines 448-459): both amount
fields present, the two price-impact fields optional. -/
structure UltraQuote where
  inAmount : ℚ
  outAmount : ℚ
  priceImpactPct : Option ℚ
  priceImpact : Option ℚ
  deriving Repr, DecidableEq

/-- Outcome of one network attempt, supplied by the quote oracle.  A
response body missing `inAmount`/`outAmount` makes line 449 throw
`Invalid quote response`, which the catch at line 460 sees as an error
with no HTTP status; such a response is therefore modelled as
`failure none none "Invalid quote response"`. -/
inductive AttemptOutcome where
  | success (q : UltraQuote)
  | failure (status : Option ℕ) (errorCode : Option String) (msg : String)
  deriving Repr, DecidableEq

/-- The quote oracle: behaviour of the upstream service on the n-th
network attempt of the run.  Attempts are strictly sequential (spec §5),
so a single global attempt counter indexes them. -/
def Oracle := ℕ → AttemptOutcome

/-- A thrown JS exception, as observed by the catch blocks. -/
inductive JsErr where
  | quoteError (status : Option ℕ) (errorCode : Option String) (msg : String)
  | refError (msg : String)
  deriving Repr, DecidableEq

/-- HTTP status carried by a thrown error (`error.response?.status`). -/
def JsErr.status : JsErr → Option ℕ
  | .quoteError s _ _ => s
  | .refError _ => none

/-- Machine-readable code carried by a thrown error
(`error.response?.data?.errorCode`). -/
def JsErr.errorCode : JsErr → Option String
  | .quoteError _ c _ => c
  | .refError _ => none

/-- Message carried by a thrown error
(`error.response?.data?.error || error.message`). -/
def JsErr.message : JsErr → String
  | .quoteError _ _ m => m
  | .refError m => m

/-- The value returned by `getQuote` (lines 455-459): the response with
`priceImpactPct` normalised from the two upstream fields. -/
structure NormQuote where
  inAmount : ℚ
  outAmount : ℚ
  priceImpactPct : Option ℚ
  deriving Repr, DecidableEq

/-- Normalisation of line 458: keep `priceImpactPct` when present,
otherwise derive it from the percentage-form `priceImpact` field. -/
def normalizeQuote (u : UltraQuote) : NormQuote :=
  { inAmount := u.inAmount
    outAmount := u.outAmount
    priceImpactPct :=
      match u.priceImpactPct with
      | some v => some v
      | none =>
        match u.priceImpact with
        | some w => some (w / 100)
        | none => none }

/-- Observable result of one `getQuote` call: the value returned or the
exception thrown, the oracle cursor after the call, one entry of
`reqAmounts` per network request actually issued, one entry of `waits`
per backoff sleep, and the number of pacing-timestamp refreshes
(`lastQuoteTime = Date.now()`, line 425).  `result = .ok none` models the
`undefined` the JS function returns when `retries = 0`. -/
structure GQRes where
  result : Except JsErr (Option NormQuote)
  nextIdx : ℕ
  reqAmounts : List ℤ
  waits : List ℚ
  pacingUpdates : ℕ
  deriving Repr

/-- The retry loop of `getQuote` (lines 432-490).  `remaining` counts the
attempts still allowed, so the source's 1-based `attempt` equals
`retries - remaining + 1`; the loop body runs while `remaining > 0`.
On HTTP 429 with attempts left it sleeps `RATE_LIMIT_RETRY_DELAY *
2^(attempt-1)` and retries; on the final attempt it rethrows; any other
error with attempts left is retried immediately (the catch at lines
460-489 has no `throw`/`continue` for that case, so the `for` loop simply
advances). -/
def getQuoteGo (oracle : Oracle) (amount : ℤ) (retries : ℕ) :
    (remaining idx : ℕ) → GQRes
  | 0, idx =>
    -- loop exhausted without returning: JS returns `undefined`
    { result := .ok none, nextIdx := idx, reqAmounts := [], waits := [],
      pacingUpdates := 0 }
  | remaining + 1, idx =>
    let attempt := retries - remaining
    match oracle idx with
    | .success u =>
      { result := .ok (some (normalizeQuote u)), nextIdx := idx + 1,
        reqAmounts := [amount], waits := [], pacingUpdates := 0 }
    | .failure status errorCode msg =>
      if status = some 429 ∧ 0 < remaining then
        let waitTime := RATE_LIMIT_RETRY_DELAY * 2 ^ (attempt - 1)
        let rest := getQuoteGo oracle amount retries remaining (idx + 1)
        { result := rest.result, nextIdx := rest.nextIdx,
          reqAmounts := amount :: rest.reqAmounts,
          waits := waitTime :: rest.waits,
          pacingUpdates := rest.pacingUpdates }
      else if remaining = 0 then
        { result := .error (.quoteError status errorCode msg),
          nextIdx := idx + 1, reqAmounts := [amount], waits := [],
          pacingUpdates := 0 }
      else
        let rest := getQuoteGo oracle amount retries remaining (idx + 1)
        { result := rest.result, nextIdx := rest.nextIdx,
          reqAmounts := amount :: rest.reqAmounts, waits := rest.waits,
          pacingUpdates := rest.pacingUpdates }

/-- Model of `getQuote` (lines 429-491): a single `waitForRateLimit`
(lines 419-426) — hence exactly one pacing-timestamp refresh — followed
by at most `retries` network attempts, all for the same `amount`.  The
slippage argument of the source is a pass-through request parameter with
no influence on any modelled observable; call sites record it in their
own traces. -/
def getQuote (oracle : Oracle) (amount : ℤ) (retries idx : ℕ) : GQRes :=
  let loop := getQuoteGo oracle amount retries retries idx
  { loop with pacingUpdates := loop.pacingUpdates + 1 }

/-- A recorded depth point (the object literals of lines 849-858,
1066-1076, 1214-1223, 1355-1364; the raw-amount echo fields duplicate the
readable amounts up to scaling and are omitted). -/
structure DepthPoint where
  price : ℚ
  amount : ℚ
  outputAmount : ℚ
  priceImpact : ℚ
  slippage : ℚ
  tradeUsdValue : ℚ
  deriving Repr, DecidableEq

/-- A recorded per-size error (object literals of lines 881-887, 895-901,
1085-1091, 1404-1411, 1476-1482; the formatted-size and timestamp fields
are presentation only and omitted, and interpolated numbers are dropped
from the message strings).  Literals that carry no `errorCode` key are
modelled with `errorCode = none`. -/
structure ProbeError where
  tradeSize : ℚ
  error : String
  errorCode : Option String
  statusCode : Option ℕ
  deriving Repr, DecidableEq

/-- One Quote-Client invocation as issued by `calculateLiquidityDepth`:
the raw amount, slippage and retry count passed to `getQuote`. -/
structure GQCall where
  amount : ℤ
  slippageBps : ℕ
  retries : ℕ
  deriving Repr, DecidableEq

/-- The mutable state of one `calculateLiquidityDepth` run (the
`depthPoints`, `errors` and `baselinePrice` variables of lines 527-559),
together with the oracle cursor and the chronological list of
Quote-Client invocations. -/
structure RunState where
  depthPoints : List DepthPoint
  errors : List ProbeError
  baselinePrice : Option ℚ
  idx : ℕ
  calls : List GQCall
  deriving Repr

/-- JS numeric coercion of a possibly-`null` number: `null` is `0`. -/
def jsNum : Option ℚ → ℚ
  | some q => q
  | none => 0

/-- Model of `Math.abs` over the rationals (kernel-computable, agreeing
with `|·|`). -/
def jsAbs (q : ℚ) : ℚ := if q < 0 then -q else q

/-- Model of `Math.floor` over the rationals: floor division of the
reduced numerator by the (positive) denominator, i.e. exactly `⌊q⌋`,
kernel-computable. -/
def jsFloor (q : ℚ) : ℤ := Int.fdiv q.num q.den


/-- The recurring JS guard `baselinePrice && baselinePrice > 0`. -/
def bpPos : Option ℚ → Bool
  | some q => decide (0 < q)
  | none => false

/-- The price-impact formula of the recovery paths (lines 844, 1209,
1353): magnitude of the relative deviation from the baseline, in percent.
With a `null` baseline JS computes `Infinity` here; over `ℚ` the division
by zero gives `0`.  Both are nonnegative, which is the only property read
off this quantity. -/
def impactAgainst (bp : Option ℚ) (price : ℚ) : ℚ :=
  jsAbs ((price - jsNum bp) / jsNum bp * 100)

/-- The duplicate test of lines 847, 1212 and 1296: some recorded point
lies within $1000 of `x`. -/
def hasPointNear (pts : List DepthPoint) (x : ℚ) : Bool :=
  pts.any (fun p => decide (jsAbs (p.tradeUsdValue - x) < 1000))

/-- Token amount a USD target converts to (lines 726-746, identically at
791-798, 1166-1174 and 1304-1311): the buy direction spends the
USD-pegged token directly; the sell direction divides by the baseline
price, falling back to a $100/token estimate when none is available. -/
def usdToTokenAmount (isBuy : Bool) (bp : Option ℚ) (usd : ℚ) : ℚ :=
  if isBuy then usd
  else if bpPos bp then usd / jsNum bp
  else usd / 100

/-- Raw integer amount for a USD target: `Math.floor(tokenAmount *
10^decimals)` (lines 749, 800, 1176, 1313). -/
def usdToRawAmount (isBuy : Bool) (bp : Option ℚ) (quoteInputDecimals : ℕ)
    (usd : ℚ) : ℤ :=
  jsFloor (usdToTokenAmount isBuy bp usd * 10 ^ quoteInputDecimals)

/-- Append a depth point (the `depthPoints.push` sites). -/
def pushPoint (st : RunState) (p : DepthPoint) : RunState :=
  { st with depthPoints := st.depthPoints ++ [p] }

/-- Append a per-size error (the `errors.push` sites). -/
def pushError (st : RunState) (e : ProbeError) : RunState :=
  { st with errors := st.errors ++ [e] }

/-- Record a Quote-Client invocation and advance the oracle cursor. -/
def recordCall (st : RunState) (c : GQCall) (nextIdx : ℕ) : RunState :=
  { st with idx := nextIdx, calls := st.calls ++ [c] }

/-- Model of `if (!baselinePrice) baselinePrice = price;` (lines 840 and
989): promote the first successful execution price to the baseline. -/
def promoteBaseline (st : RunState) (price : ℚ) : RunState :=
  if st.baselinePrice.isSome then st
  else { st with baselinePrice := some price }

/-- The reverse-direction price probe for sell orders (lines 563-590):
spend $100 of the output token, derive output-per-input price, accept it
as the baseline estimate when positive and below the 1e10 sanity ceiling;
any failure is swallowed by the catch at line 587. -/
def reverseEstimate (oracle : Oracle) (inputDecimals outputDecimals : ℕ)
    (st : RunState) : RunState :=
  let smallReverseAmount : ℤ := jsFloor ((100 : ℚ) * 10 ^ outputDecimals)
  let r := getQuote oracle smallReverseAmount 1 st.idx
  let st := recordCall st ⟨smallReverseAmount, 50, 1⟩ r.nextIdx
  match r.result with
  | .error _ => st
  | .ok none => st
  | .ok (some q) =>
    let reverseInputReadable := q.inAmount / 10 ^ outputDecimals
    let reverseOutputReadable := q.outAmount / 10 ^ inputDecimals
    let estimatedPrice := reverseInputReadable / reverseOutputReadable
    if 0 < estimatedPrice ∧ estimatedPrice < 10 ^ 10 then
      { st with baselinePrice := some estimatedPrice }
    else st

/-- Body of one baseline-price trial (lines 596-668), an exception-prone
region: a `getQuote` failure propagates to the catch at line 669, and —
after a valid price has been computed and stored — the success log of
line 662 reads the undeclared identifiers `outputToken`/`inputToken`,
raising `ReferenceError: outputToken is not defined` before the `break`
of line 663 can execute.  Mutations made before a throw persist, so the
freshly assigned `baselinePrice` survives the exception. -/
def baselineTrialBody (oracle : Oracle) (isBuy : Bool)
    (inputDecimals outputDecimals quoteInputDecimals : ℕ)
    (smallUsdAmount : ℚ) (st : RunState) : RunState × Option JsErr :=
  let smallTokenAmount : ℚ :=
    if isBuy then smallUsdAmount
    else if bpPos st.baselinePrice then smallUsdAmount / jsNum st.baselinePrice
    else
      -- assumed unit-price ladder $100, $10, $1, $0.1 (lines 614-636)
      let testTokenAmounts : List ℚ :=
        [smallUsdAmount / 100, smallUsdAmount / 10, smallUsdAmount / 1,
          smallUsdAmount / (1 / 10)]
      match testTokenAmounts.find?
          (fun t => decide (0 < jsFloor (t * 10 ^ quoteInputDecimals))) with
      | some t => t
      | none => smallUsdAmount / 100
  let smallRawAmount : ℤ := jsFloor (smallTokenAmount * 10 ^ quoteInputDecimals)
  if smallRawAmount ≤ 0 then (st, none)
  else
    let r := getQuote oracle smallRawAmount 2 st.idx
    let st := recordCall st ⟨smallRawAmount, 50, 2⟩ r.nextIdx
    match r.result with
    | .error e => (st, some e)
    | .ok none => (st, none)
    | .ok (some q) =>
      let baselineInputRaw := if isBuy then q.outAmount else q.inAmount
      let baselineOutputRaw := if isBuy then q.inAmount else q.outAmount
      let baselineInputReadable := baselineInputRaw / 10 ^ inputDecimals
      let baselineOutputReadable := baselineOutputRaw / 10 ^ outputDecimals
      let calculatedPrice := baselineOutputReadable / baselineInputReadable
      if 0 < calculatedPrice ∧ calculatedPrice < 10 ^ 10 then
        ({ st with baselinePrice := some calculatedPrice },
          some (.refError "outputToken is not defined"))
      else (st, none)

/-- One baseline trial with its catch (lines 669-682): every exception is
swallowed and the loop continues with the next trial amount. -/
def baselineTrial (oracle : Oracle) (isBuy : Bool)
    (inputDecimals outputDecimals quoteInputDecimals : ℕ)
    (smallUsdAmount : ℚ) (st : RunState) : RunState :=
  (baselineTrialBody oracle isBuy inputDecimals outputDecimals
    quoteInputDecimals smallUsdAmount st).1

/-- The baseline loop (lines 592-684): entered only when no baseline
price was obtained from the reverse probe; because the `ReferenceError`
of line 662 fires before the `break` of line 663, the loop always visits
all three trial amounts $100, $50, $10. -/
def baselinePhase (oracle : Oracle) (isBuy : Bool)
    (inputDecimals outputDecimals quoteInputDecimals : ℕ)
    (st : RunState) : RunState :=
  if st.baselinePrice.isSome then st
  else
    ([100, 50, 10] : List ℚ).foldl
      (fun s u => baselineTrial oracle isBuy inputDecimals outputDecimals
        quoteInputDecimals u s) st

/-- Slippage tiers of the overflow shrink loop (lines 812-824). -/
def overflowSlippageBps (smallerAmount : ℤ) : ℕ :=
  if 50000000 ≤ smallerAmount then 10000
  else if 10000000 ≤ smallerAmount then 5000
  else if 1000000 ≤ smallerAmount then 500
  else if 100000 ≤ smallerAmount then 200
  else 100

/-- Shrink-candidate generation after an overflow (lines 776-782): start
at `min(usd, 0.9 * maxSafeUsd)`, keep the floor of each value while it is
at least $500, shrink by 20% per step, at most 20 candidates (the fuel
argument is the source's `length < 20` bound). -/
def overflowShrinkGo : ℕ → ℚ → List ℤ
  | 0, _ => []
  | fuel + 1, t =>
    if 500 ≤ t then jsFloor t :: overflowShrinkGo fuel (t * (4 / 5)) else []

/-- The shrink-candidate list of lines 776-782. -/
def overflowShrinkAmounts (usd maxSafeUsd : ℚ) : List ℤ :=
  overflowShrinkGo 20 (min usd (maxSafeUsd * (9 / 10)))

/-- One iteration of the overflow shrink loop (lines 789-871).  Returns
the new state and whether a working amount was recorded (in which case
the loop breaks, line 864).  Raw amounts outside `(0, MAX_SAFE_INTEGER]`
are skipped before any network call (line 802). -/
def overflowTryOne (oracle : Oracle) (isBuy : Bool)
    (inputDecimals outputDecimals quoteInputDecimals : ℕ) (smaller : ℤ)
    (st : RunState) : RunState × Bool :=
  let smallerRawAmount :=
    usdToRawAmount isBuy st.baselinePrice quoteInputDecimals (smaller : ℚ)
  if smallerRawAmount ≤ 0 ∨ MAX_SAFE_INTEGER < smallerRawAmount then
    (st, false)
  else
    let r := getQuote oracle smallerRawAmount 3 st.idx
    let st := recordCall st
      ⟨smallerRawAmount, overflowSlippageBps smaller, 3⟩ r.nextIdx
    match r.result with
    | .error _ => (st, false)
    | .ok none => (st, false)
    | .ok (some q) =>
      let inputAmountRaw := if isBuy then q.outAmount else q.inAmount
      let outputAmountRaw := if isBuy then q.inAmount else q.outAmount
      let inputAmountReadable := inputAmountRaw / 10 ^ inputDecimals
      let outputAmountReadable := outputAmountRaw / 10 ^ outputDecimals
      if 0 < inputAmountReadable ∧ 0 < outputAmountReadable then
        let price := outputAmountReadable / inputAmountReadable
        if 0 < price ∧ price < 10 ^ 10 then
          let st := promoteBaseline st price
          let priceImpact := impactAgainst st.baselinePrice price
          if hasPointNear st.depthPoints (smaller : ℚ) then (st, false)
          else
            (pushPoint st ⟨price, inputAmountReadable, outputAmountReadable,
              priceImpact, priceImpact, (smaller : ℚ)⟩, true)
        else (st, false)
      else (st, false)

/-- The overflow shrink loop (lines 788-872): stop at the first recorded
point. -/
def overflowLoop (oracle : Oracle) (isBuy : Bool)
    (inputDecimals outputDecimals quoteInputDecimals : ℕ) :
    List ℤ → RunState → RunState
  | [], st => st
  | smaller :: rest, st =>
    match overflowTryOne oracle isBuy inputDecimals outputDecimals
        quoteInputDecimals smaller st with
    | (st', true) => st'
    | (st', false) =>
      overflowLoop oracle isBuy inputDecimals outputDecimals
        quoteInputDecimals rest st'

/-- The overflow error message of line 755 (interpolated numbers
omitted). -/
def overflowErrorMsg : String := "Raw amount exceeds MAX_SAFE_INTEGER"

/-- The `rawAmount > MAX_SAFE_INTEGER` branch (lines 754-889): compute a
maximum safe USD ceiling, probe the shrink candidates until one works,
and in every case record the overflow ProbeError for the original target
and continue with the next ladder entry. -/
def overflowBranch (oracle : Oracle) (isBuy : Bool)
    (inputDecimals outputDecimals quoteInputDecimals : ℕ) (usd : ℚ)
    (st : RunState) : RunState :=
  let maxSafe : ℚ := (MAX_SAFE_INTEGER : ℚ) / 10 ^ quoteInputDecimals
  let maxSafeUsdAmount :=
    if bpPos st.baselinePrice then
      if isBuy then
        min maxSafe ((MAX_SAFE_INTEGER : ℚ) / 10 ^ quoteInputDecimals)
      else maxSafe * jsNum st.baselinePrice
    else maxSafe
  let smallerAmounts := overflowShrinkAmounts usd maxSafeUsdAmount
  let st := overflowLoop oracle isBuy inputDecimals outputDecimals
    quoteInputDecimals smallerAmounts st
  pushError st ⟨usd, overflowErrorMsg, none, none⟩

/-- Tier-dependent candidate lists of the maximum-liquidity search
(lines 1132-1155). -/
def smallerAmountsFor (usd : ℚ) : List ℤ :=
  if 50000000 ≤ usd then
    [45000000, 40000000, 35000000, 30000000, 25000000, 20000000, 15000000,
      12000000, 11000000, 10500000, 10000000]
  else if 10000000 ≤ usd then
    [9500000, 9000000, 8500000, 8000000, 7500000, 7000000, 6500000,
      6000000, 5500000, 5000000, 4500000, 4000000, 3500000, 3000000,
      2500000, 2000000]
  else if 1000000 ≤ usd then
    [950000, 900000, 850000, 800000, 750000, 700000, 650000, 600000,
      550000, 500000, 450000, 400000, 350000, 300000, 250000, 200000]
  else if 100000 ≤ usd then
    [95000, 90000, 85000, 80000, 75000, 70000, 65000, 60000, 55000, 50000,
      45000, 40000, 35000, 30000, 25000, 20000]
  else if 10000 ≤ usd then
    [9500, 9000, 8500, 8000, 7500, 7000, 6500, 6000, 5500, 5000, 4500,
      4000, 3500, 3000, 2500, 2000]
  else if 1000 ≤ usd then
    [950, 900, 850, 800, 750, 700, 650, 600, 550, 500]
  else if 500 ≤ usd then
    [450, 400, 350, 300, 250, 200, 150, 100]
  else []

/-- Slippage of the descending-ladder probes (line 1189), a function of
the rejected target. -/
def descendSlippageBps (usd : ℚ) : ℕ :=
  if 50000000 ≤ usd then 10000 else if 10000000 ≤ usd then 5000 else 500

/-- One descending-ladder candidate (lines 1161-1249): probe it, record a
point unless a near-duplicate exists, track the maximum working amount —
and keep iterating regardless of success (the source explicitly does not
break early: comments at lines 1162-1163 and 1240-1241). -/
def descendTryOne (oracle : Oracle) (isBuy : Bool)
    (inputDecimals outputDecimals quoteInputDecimals : ℕ) (usd : ℚ)
    (acc : RunState × ℤ × Bool) (smaller : ℤ) : RunState × ℤ × Bool :=
  let st := acc.1
  let maxWorking := acc.2.1
  let found := acc.2.2
  let smallerRawAmount :=
    usdToRawAmount isBuy st.baselinePrice quoteInputDecimals (smaller : ℚ)
  if smallerRawAmount ≤ 0 then acc
  else
    let r := getQuote oracle smallerRawAmount 3 st.idx
    let st := recordCall st
      ⟨smallerRawAmount, descendSlippageBps usd, 3⟩ r.nextIdx
    match r.result with
    | .error _ => (st, maxWorking, found)
    | .ok none => (st, maxWorking, found)
    | .ok (some q) =>
      let inputAmountRaw := if isBuy then q.outAmount else q.inAmount
      let outputAmountRaw := if isBuy then q.inAmount else q.outAmount
      let inputAmountReadable := inputAmountRaw / 10 ^ inputDecimals
      let outputAmountReadable := outputAmountRaw / 10 ^ outputDecimals
      if 0 < inputAmountReadable ∧ 0 < outputAmountReadable then
        let price := outputAmountReadable / inputAmountReadable
        if 0 < price ∧ price < 10 ^ 10 then
          let priceImpact := impactAgainst st.baselinePrice price
          let st :=
            if hasPointNear st.depthPoints (smaller : ℚ) then st
            else pushPoint st ⟨price, inputAmountReadable,
              outputAmountReadable, priceImpact, priceImpact, (smaller : ℚ)⟩
          (st, if maxWorking < smaller then smaller else maxWorking, true)
        else (st, maxWorking, found)
      else (st, maxWorking, found)

/-- The descending-ladder phase (lines 1157-1249): fold over all tier
candidates starting from `maxWorkingAmount = 0`,
`foundWorkingAmount = false`. -/
def descendPhase (oracle : Oracle) (isBuy : Bool)
    (inputDecimals outputDecimals quoteInputDecimals : ℕ) (usd : ℚ)
    (candidates : List ℤ) (st : RunState) : RunState × ℤ × Bool :=
  candidates.foldl
    (descendTryOne oracle isBuy inputDecimals outputDecimals
      quoteInputDecimals usd) (st, 0, false)

/-- Step-size floor of the binary narrowing (lines 1276-1289). -/
def minStepFor (usd : ℚ) : ℚ :=
  if 10000000 ≤ usd then 100000
  else if 1000000 ≤ usd then 10000
  else if 100000 ≤ usd then 1000
  else if 10000 ≤ usd then 100
  else if 1000 ≤ usd then 50
  else 10

/-- Slippage of the binary-narrowing probes (lines 1327-1338), a function
of the rejected target. -/
def binarySlippageBps (usd : ℚ) : ℕ :=
  if 50000000 ≤ usd then 10000
  else if 10000000 ≤ usd then 5000
  else if 1000000 ≤ usd then 500
  else if 100000 ≤ usd then 200
  else 100

/-- The binary-narrowing loop (lines 1270-1399).  A midpoint within $1000
of a recorded point counts as already tested and becomes the new `low`
without a probe (lines 1296-1301); a successful probe records the
midpoint as a depth point and raises `low`; any failure lowers `high`.
The fuel argument only bounds the recursion: for the integral bounds the
source produces the interval strictly shrinks every iteration, so a fuel
of `⌈high - low⌉ + 1` is never exhausted. -/
def binarySearchGo (oracle : Oracle) (isBuy : Bool)
    (inputDecimals outputDecimals quoteInputDecimals : ℕ) (usd : ℚ) :
    ℕ → ℚ → ℚ → RunState → RunState
  | 0, _, _, st => st
  | fuel + 1, low, high, st =>
    if high - low ≤ minStepFor usd then st
    else
      let mid : ℚ := ((jsFloor ((low + high) / 2) : ℤ) : ℚ)
      if hasPointNear st.depthPoints mid then
        binarySearchGo oracle isBuy inputDecimals outputDecimals
          quoteInputDecimals usd fuel mid high st
      else
        let testRawAmount :=
          usdToRawAmount isBuy st.baselinePrice quoteInputDecimals mid
        if testRawAmount ≤ 0 then
          binarySearchGo oracle isBuy inputDecimals outputDecimals
            quoteInputDecimals usd fuel low mid st
        else
          let r := getQuote oracle testRawAmount 2 st.idx
          let st := recordCall st
            ⟨testRawAmount, binarySlippageBps usd, 2⟩ r.nextIdx
          match r.result with
          | .error _ =>
            binarySearchGo oracle isBuy inputDecimals outputDecimals
              quoteInputDecimals usd fuel low mid st
          | .ok none =>
            binarySearchGo oracle isBuy inputDecimals outputDecimals
              quoteInputDecimals usd fuel low mid st
          | .ok (some q) =>
            let testInputRaw := if isBuy then q.outAmount else q.inAmount
            let testOutputRaw := if isBuy then q.inAmount else q.outAmount
            let testInputReadable := testInputRaw / 10 ^ inputDecimals
            let testOutputReadable := testOutputRaw / 10 ^ outputDecimals
            if 0 < testInputReadable ∧ 0 < testOutputReadable then
              let testPrice := testOutputReadable / testInputReadable
              if 0 < testPrice ∧ testPrice < 10 ^ 10 then
                let testPriceImpact := impactAgainst st.baselinePrice testPrice
                let st := pushPoint st ⟨testPrice, testInputReadable,
                  testOutputReadable, testPriceImpact, testPriceImpact, mid⟩
                binarySearchGo oracle isBuy inputDecimals outputDecimals
                  quoteInputDecimals usd fuel mid high st
              else
                binarySearchGo oracle isBuy inputDecimals outputDecimals
                  quoteInputDecimals usd fuel low mid st
            else
              binarySearchGo oracle isBuy inputDecimals outputDecimals
                quoteInputDecimals usd fuel low mid st

/-- The binary-narrowing phase (lines 1263-1399), run between the best
descending-ladder amount and the rejected target. -/
def binaryPhase (oracle : Oracle) (isBuy : Bool)
    (inputDecimals outputDecimals quoteInputDecimals : ℕ) (usd : ℚ)
    (maxWorking : ℤ) (st : RunState) : RunState :=
  binarySearchGo oracle isBuy inputDecimals outputDecimals
    quoteInputDecimals usd ((usd - (maxWorking : ℚ)).num.toNat + 1)
    (maxWorking : ℚ) usd st

/-- Substring test used by the error classification (JS
`String.includes`). -/
def containsSub (s pat : String) : Bool :=
  decide (pat.toList <:+: s.toList)

/-- The routing/liquidity classification of lines 1103-1110. -/
def isRoutingError (status : Option ℕ) (errorCode : Option String)
    (msg : String) : Bool :=
  errorCode == some "ROUTE_PLAN_DOES_NOT_CONSUME_ALL_THE_AMOUNT" ||
  containsSub msg "does not consume all the amount" ||
  containsSub msg.toLower "no route" ||
  containsSub msg.toLower "cannot route" ||
  containsSub msg.toLower "insufficient liquidity" ||
  containsSub msg.toLower "liquidity" ||
  status == some 400

/-- Main-ladder slippage tiers (lines 945-952). -/
def mainSlippageBps (usd : ℚ) : ℕ :=
  if 50000000 ≤ usd then 10000
  else if 10000000 ≤ usd then 5000
  else if 1000000 ≤ usd then 500
  else 50

/-- Main-ladder retry counts (line 933). -/
def mainRetryCount (usd : ℚ) : ℕ :=
  if 50000000 ≤ usd then 5 else if 10000000 ≤ usd then 4 else 2

/-- The main-path price-impact computation (lines 994-1042): prefer the
oracle's own `priceImpactPct` (its absolute value, scaled to percent);
otherwise, with a baseline available, compare expected output at the
baseline price to the actual output (falling back to the price-ratio
deviation when either side is non-positive); with no baseline, record
zero. -/
def mainPriceImpact (bp : Option ℚ) (inputAmountReadable
    outputAmountReadable : ℚ) (priceImpactPct : Option ℚ) : ℚ :=
  match priceImpactPct with
  | some v => jsAbs (v * 100)
  | none =>
    if bpPos bp then
      let expectedOutput := inputAmountReadable * jsNum bp
      if 0 < expectedOutput ∧ 0 < outputAmountReadable then
        jsAbs ((expectedOutput - outputAmountReadable) /
          expectedOutput * 100)
      else
        jsAbs ((outputAmountReadable / inputAmountReadable - jsNum bp) /
          jsNum bp * 100)
    else 0

/-- The success path of a main-ladder quote (lines 960-1080): validate
the readable amounts and the execution price (the guard of line 983
rejects only `price > 1e10`, admitting `price = 1e10` exactly), promote
the first successful price to the baseline, compute the price impact,
and record the point keyed by the requested USD target. -/
def mainSuccess (isBuy : Bool) (inputDecimals outputDecimals : ℕ)
    (usd : ℚ) (q : NormQuote) (st : RunState) : RunState :=
  let inputAmountRaw := if isBuy then q.outAmount else q.inAmount
  let outputAmountRaw := if isBuy then q.inAmount else q.outAmount
  let inputAmountReadable := inputAmountRaw / 10 ^ inputDecimals
  let outputAmountReadable := outputAmountRaw / 10 ^ outputDecimals
  if inputAmountReadable ≤ 0 then st
  else if outputAmountReadable ≤ 0 then st
  else
    let price := outputAmountReadable / inputAmountReadable
    if price ≤ 0 ∨ 10 ^ 10 < price then st
    else
      let st := promoteBaseline st price
      let priceImpact := mainPriceImpact st.baselinePrice
        inputAmountReadable outputAmountReadable q.priceImpactPct
      pushPoint st ⟨price, inputAmountReadable, outputAmountReadable,
        priceImpact, priceImpact, usd⟩

/-- The `try` body of one ladder entry (lines 723-1092): overflow branch,
too-small branch, or a quote whose failure propagates to the entry's
catch. -/
def processEntryBody (oracle : Oracle) (isBuy : Bool)
    (inputDecimals outputDecimals quoteInputDecimals : ℕ) (usd : ℚ)
    (st : RunState) : RunState × Option JsErr :=
  let rawAmount := usdToRawAmount isBuy st.baselinePrice quoteInputDecimals usd
  if MAX_SAFE_INTEGER < rawAmount then
    (overflowBranch oracle isBuy inputDecimals outputDecimals
      quoteInputDecimals usd st, none)
  else if rawAmount ≤ 0 then
    (pushError st ⟨usd, "Calculated token amount too small", none, none⟩,
      none)
  else
    let r := getQuote oracle rawAmount (mainRetryCount usd) st.idx
    let st := recordCall st
      ⟨rawAmount, mainSlippageBps usd, mainRetryCount usd⟩ r.nextIdx
    match r.result with
    | .error e => (st, some e)
    | .ok none =>
      (pushError st ⟨usd, "No quote data returned", none, none⟩, none)
    | .ok (some q) =>
      (mainSuccess isBuy inputDecimals outputDecimals usd q st, none)

/-- The `catch` of one ladder entry (lines 1093-1483): a routing-class
failure triggers the two-phase maximum-liquidity search and is then
recorded; any other failure is recorded directly.  Either way the entry
ends in `continue`. -/
def entryCatch (oracle : Oracle) (isBuy : Bool)
    (inputDecimals outputDecimals quoteInputDecimals : ℕ) (usd : ℚ)
    (e : JsErr) (st : RunState) : RunState :=
  if isRoutingError e.status e.errorCode e.message then
    let d := descendPhase oracle isBuy inputDecimals outputDecimals
      quoteInputDecimals usd (smallerAmountsFor usd) st
    let st :=
      if d.2.2 ∧ 0 < d.2.1 ∧ ((d.2.1 : ℤ) : ℚ) < usd then
        binaryPhase oracle isBuy inputDecimals outputDecimals
          quoteInputDecimals usd d.2.1 d.1
      else d.1
    pushError st ⟨usd, e.message, e.errorCode, e.status⟩
  else
    pushError st ⟨usd, e.message, none, e.status⟩

/-- One ladder entry: the `try` body guarded by the `catch`. -/
def processEntry (oracle : Oracle) (isBuy : Bool)
    (inputDecimals outputDecimals quoteInputDecimals : ℕ)
    (st : RunState) (usd : ℚ) : RunState × Option JsErr :=
  match processEntryBody oracle isBuy inputDecimals outputDecimals
      quoteInputDecimals usd st with
  | (st', none) => (st', none)
  | (st', some e) =>
    (entryCatch oracle isBuy inputDecimals outputDecimals
      quoteInputDecimals usd e st', none)

/-- The fixed USD ladder (lines 540-549). -/
def usdTradeSizes : List ℚ :=
  [500, 1000, 10000, 100000, 1000000, 10000000, 50000000, 100000000]

/-- The per-size loop (lines 693-1484).  An exception escaping an entry
would abort the remaining ladder; the second component records such an
escape. -/
def runLadder (oracle : Oracle) (isBuy : Bool)
    (inputDecimals outputDecimals quoteInputDecimals : ℕ) :
    RunState → List ℚ → RunState × Option JsErr
  | st, [] => (st, none)
  | st, usd :: rest =>
    match processEntry oracle isBuy inputDecimals outputDecimals
        quoteInputDecimals st usd with
    | (st', none) =>
      runLadder oracle isBuy inputDecimals outputDecimals
        quoteInputDecimals st' rest
    | (st', some e) => (st', some e)

/-- The validity test of the cumulative pass (line 1538): positive
amount and positive price (finiteness is automatic over `ℚ`). -/
def validForCumulative (p : DepthPoint) : Bool :=
  decide (0 < p.amount) && decide (0 < p.price)

/-- A depth point with its assigned running cumulative sums (the
`cumulativeLiquidity` / `cumulativeOutputLiquidity` fields written by the
forEach of lines 1536-1560). -/
structure AssembledPoint where
  point : DepthPoint
  cumulativeLiquidity : ℚ
  cumulativeOutputLiquidity : ℚ
  deriving Repr, DecidableEq

/-- The cumulative pass (lines 1533-1560): a valid point extends both
running sums; an invalid one inherits the previous point's assigned
cumulative values, `0` at index 0. -/
def assembleGo (cum cumOut prevC prevO : ℚ) :
    List DepthPoint → List AssembledPoint
  | [] => []
  | p :: rest =>
    if validForCumulative p then
      ⟨p, cum + p.amount, cumOut + p.outputAmount⟩ ::
        assembleGo (cum + p.amount) (cumOut + p.outputAmount)
          (cum + p.amount) (cumOut + p.outputAmount) rest
    else
      ⟨p, prevC, prevO⟩ :: assembleGo cum cumOut prevC prevO rest

/-- Sort comparator of line 1531 (numeric ascending). -/
def pointLE (a b : DepthPoint) : Bool :=
  decide (a.tradeUsdValue ≤ b.tradeUsdValue)

/-- The depth assembler (lines 1529-1560): stable ascending sort by
`tradeUsdValue` followed by the cumulative pass. -/
def assemble (pts : List DepthPoint) : List AssembledPoint :=
  assembleGo 0 0 0 0 (pts.mergeSort pointLE)

/-- Modelled from the spec (§3 and §4.6): the running cumulative input
liquidity over the sorted sequence — each point passing the validity
check adds its input amount, every other point inherits the previous
value (0 initially).  Comparison definition for the assembler's
cumulative pass. -/
def specRunningTotals (c : ℚ) : List DepthPoint → List ℚ
  | [] => []
  | p :: rest =>
    (if validForCumulative p then c + p.amount else c) ::
      specRunningTotals (if validForCumulative p then c + p.amount else c)
        rest

/-- The value returned by `calculateLiquidityDepth` (lines 1573-1577),
plus observability fields: `rawPoints` is the points list in insertion
order, before the sort-and-cumulative pass; `calls` the trace of
Quote-Client invocations; and a `thrown ≠ none` would mean the function
aborted with an uncaught exception instead of returning. -/
structure CalcResult where
  depthPoints : List AssembledPoint
  rawPoints : List DepthPoint
  errors : List ProbeError
  baselinePrice : Option ℚ
  calls : List GQCall
  thrown : Option JsErr
  deriving Repr

/-- The initial run state (lines 527-559). -/
def initialState : RunState :=
  { depthPoints := [], errors := [], baselinePrice := none, idx := 0,
    calls := [] }

/-- Model of `calculateLiquidityDepth` (lines 526-1578): reverse baseline
probe (sell direction only), baseline-trial loop, the per-size ladder,
then the sort-and-cumulative pass.  The decimals arrive from the external
token catalog (`getTokenDecimals`, which defaults to 6 on any failure);
the time-budget truncation and the pacing sleeps are outside the
embedding (see the file header). -/
def calculateLiquidityDepth (oracle : Oracle)
    (inputDecimals outputDecimals : ℕ) (isBuy : Bool) : CalcResult :=
  let quoteInputDecimals := if isBuy then outputDecimals else inputDecimals
  let st := initialState
  let st := if isBuy then st
    else reverseEstimate oracle inputDecimals outputDecimals st
  let st := baselinePhase oracle isBuy inputDecimals outputDecimals
    quoteInputDecimals st
  match runLadder oracle isBuy inputDecimals outputDecimals
      quoteInputDecimals st usdTradeSizes with
  | (st', some e) =>
    { depthPoints := [], rawPoints := st'.depthPoints,
      errors := st'.errors, baselinePrice := st'.baselinePrice,
      calls := st'.calls, thrown := some e }
  | (st', none) =>
    { depthPoints := assemble st'.depthPoints,
      rawPoints := st'.depthPoints, errors := st'.errors,
      baselinePrice := st'.baselinePrice, calls := st'.calls,
      thrown := none }

/-- Oracle answering every attempt with a non-routing server error. -/
def oracleServerErr : Oracle :=
  fun _ => .failure (some 500) none "internal server error"

/-- Oracle answering every attempt with the no-route rejection. -/
def oracleNoRoute : Oracle :=
  fun _ => .failure (some 400)
    (some "ROUTE_PLAN_DOES_NOT_CONSUME_ALL_THE_AMOUNT")
    "Route plan does not consume all the amount"

/-- Oracle answering 429 on the first three attempts, then succeeding. -/
def oracle429x3 : Oracle :=
  fun i => if i < 3 then .failure (some 429) none "Too many requests"
    else .success ⟨1, 2, none, none⟩

/-- Oracle answering every attempt with the same unit quote. -/
def oracleUnit : Oracle := fun _ => .success ⟨1, 1, none, none⟩

/-- Oracle for the price-ceiling boundary run: transport failures until
the first main-ladder quote of the sell-direction run with decimals 0
(global attempt 7), which answers `inAmount 1`, `outAmount 10^10`. -/
def oracleCeiling : Oracle :=
  fun i => if i = 7 then .success ⟨1, 10 ^ 10, none, none⟩
    else .failure none none "transport failure"

/-- Well-formedness of a recorded depth point, as established by the
guards at every push site: nonnegative impact, positive readable amounts,
and an execution price in `(0, 10^10]` (the main-ladder guard of line 983
admits the right endpoint; the recovery-path guards are strict). -/
def goodPoint (p : DepthPoint) : Prop :=
  0 ≤ p.priceImpact ∧ 0 < p.amount ∧ 0 < p.outputAmount ∧ 0 < p.price ∧
    p.price ≤ 10 ^ 10

/-- A Quote-Client invocation whose raw amount is positive and within the
integer ceiling. -/
def safeCall (c : GQCall) : Prop :=
  0 < c.amount ∧ c.amount ≤ MAX_SAFE_INTEGER

/-- Two depth points sharing the same `tradeUsdValue` (a tie for the
assembler's sort). -/
def tiedPoints : List DepthPoint :=
  [⟨1, 1, 1, 0, 0, 500⟩, ⟨2, 2, 2, 0, 0, 500⟩]

/-- A run state holding an established baseline price of 1. -/
def stOneBaseline : RunState :=
  { depthPoints := [], errors := [], baselinePrice := some 1, idx := 0,
    calls := [] }

/-- jsAbs is never negative. -/
theorem jsAbs_nonneg (q : ℚ) : 0 ≤ jsAbs q := by
  unfold jsAbs
  split <;> linarith

/-- jsAbs agrees with the absolute value. -/
theorem jsAbs_eq_abs (q : ℚ) : jsAbs q = |q| := by
  unfold jsAbs
  split
  · exact (abs_of_neg (by assumption)).symm
  · exact (abs_of_nonneg (by linarith)).symm

/-- jsFloor agrees with the floor. -/
theorem jsFloor_eq_floor (q : ℚ) : jsFloor q = ⌊q⌋ := by
  rw [jsFloor, Int.fdiv_eq_ediv _ (by positivity), Rat.floor_def]

/-- Price impact against any baseline is nonnegative. -/
theorem impactAgainst_nonneg (bp : Option ℚ) (price : ℚ) :
    0 ≤ impactAgainst bp price := jsAbs_nonneg _

@[simp] theorem recordCall_depthPoints (st : RunState) (c : GQCall)
    (i : ℕ) : (recordCall st c i).depthPoints = st.depthPoints := rfl

@[simp] theorem recordCall_errors (st : RunState) (c : GQCall) (i : ℕ) :
    (recordCall st c i).errors = st.errors := rfl

@[simp] theorem recordCall_calls (st : RunState) (c : GQCall) (i : ℕ) :
    (recordCall st c i).calls = st.calls ++ [c] := rfl

@[simp] theorem recordCall_baselinePrice (st : RunState) (c : GQCall)
    (i : ℕ) : (recordCall st c i).baselinePrice = st.baselinePrice := rfl

@[simp] theorem pushPoint_depthPoints (st : RunState) (p : DepthPoint) :
    (pushPoint st p).depthPoints = st.depthPoints ++ [p] := rfl

@[simp] theorem pushPoint_errors (st : RunState) (p : DepthPoint) :
    (pushPoint st p).errors = st.errors := rfl

@[simp] theorem pushPoint_calls (st : RunState) (p : DepthPoint) :
    (pushPoint st p).calls = st.calls := rfl

@[simp] theorem pushPoint_baselinePrice (st : RunState) (p : DepthPoint) :
    (pushPoint st p).baselinePrice = st.baselinePrice := rfl

@[simp] theorem pushError_depthPoints (st : RunState) (e : ProbeError) :
    (pushError st e).depthPoints = st.depthPoints := rfl

@[simp] theorem pushError_errors (st : RunState) (e : ProbeError) :
    (pushError st e).errors = st.errors ++ [e] := rfl

@[simp] theorem pushError_calls (st : RunState) (e : ProbeError) :
    (pushError st e).calls = st.calls := rfl

@[simp] theorem pushError_baselinePrice (st : RunState) (e : ProbeError) :
    (pushError st e).baselinePrice = st.baselinePrice := rfl

@[simp] theorem promoteBaseline_depthPoints (st : RunState) (price : ℚ) :
    (promoteBaseline st price).depthPoints = st.depthPoints := by
  unfold promoteBaseline
  split <;> rfl

@[simp] theorem promoteBaseline_errors (st : RunState) (price : ℚ) :
    (promoteBaseline st price).errors = st.errors := by
  unfold promoteBaseline
  split <;> rfl

@[simp] theorem promoteBaseline_calls (st : RunState) (price : ℚ) :
    (promoteBaseline st price).calls = st.calls := by
  unfold promoteBaseline
  split <;> rfl

@[simp] theorem promoteBaseline_idx (st : RunState) (price : ℚ) :
    (promoteBaseline st price).idx = st.idx := by
  unfold promoteBaseline
  split <;> rfl

/-- The retry loop itself never touches the pacing timestamp:
`waitForRateLimit` is called only once, before the loop (line 430). -/
theorem getQuoteGo_pacingUpdates (oracle : Oracle) (amount : ℤ)
    (retries : ℕ) : ∀ remaining idx,
    (getQuoteGo oracle amount retries remaining idx).pacingUpdates = 0 := by
  intro remaining
  induction remaining with
  | zero => intro idx; rfl
  | succ n ih =>
    intro idx
    cases hor : oracle idx with
    | success u => simp [getQuoteGo, hor]
    | failure status errorCode msg =>
      simp only [getQuoteGo, hor]
      by_cases h : status = some 429 ∧ 0 < n
      · simp only [if_pos h, ih]
      · simp only [if_neg h]
        by_cases h0 : n = 0
        · simp only [if_pos h0]
        · simp only [if_neg h0, ih]

/-- Every network request issued by one `getQuote` call carries the same
raw amount as the call itself. -/
theorem getQuoteGo_reqAmounts (oracle : Oracle) (amount : ℤ)
    (retries : ℕ) : ∀ remaining idx,
    ∀ x ∈ (getQuoteGo oracle amount retries remaining idx).reqAmounts,
    x = amount := by
  intro remaining
  induction remaining with
  | zero => intro idx x hx; simp [getQuoteGo] at hx
  | succ n ih =>
    intro idx x hx
    cases hor : oracle idx with
    | success u =>
      simp only [getQuoteGo, hor] at hx
      simpa using hx
    | failure status errorCode msg =>
      simp only [getQuoteGo, hor] at hx
      by_cases h : status = some 429 ∧ 0 < n
      · rw [if_pos h] at hx
        simp only [List.mem_cons] at hx
        rcases hx with hx | hx
        · exact hx
        · exact ih (idx + 1) x hx
      · rw [if_neg h] at hx
        by_cases h0 : n = 0
        · rw [if_pos h0] at hx
          simpa using hx
        · rw [if_neg h0] at hx
          simp only [List.mem_cons] at hx
          rcases hx with hx | hx
          · exact hx
          · exact ih (idx + 1) x hx

/-- Helper: under an oracle that always answers with the same non-429
failure, the retry loop issues one request per allowed attempt, performs
no backoff wait, and surfaces the failure after the last attempt. -/
theorem getQuoteGo_const_failure (oracle : Oracle) (s : ℕ)
    (ec : Option String) (msg : String) (amount : ℤ) (retries : ℕ)
    (hs : s ≠ 429)
    (hor : ∀ i, oracle i = .failure (some s) ec msg) :
    ∀ n idx,
      getQuoteGo oracle amount retries (n + 1) idx =
        { result := .error (.quoteError (some s) ec msg),
          nextIdx := idx + (n + 1),
          reqAmounts := List.replicate (n + 1) amount,
          waits := [], pacingUpdates := 0 } := by
  intro n
  induction n with
  | zero =>
    intro idx
    simp [getQuoteGo, hor idx, hs]
  | succ m ih =>
    intro idx
    have hne : ¬((some s : Option ℕ) = some 429 ∧ 0 < m + 1) := by
      simp [hs]
    conv_lhs => rw [getQuoteGo]
    simp only [hor idx]
    rw [if_neg hne, if_neg (by omega : ¬(m + 1 = 0)), ih (idx + 1)]
    simp only [GQRes.mk.injEq, List.replicate_succ, and_true, true_and]
    omega

/-- C7 (counterexample): the claim says a Quote call making N network
attempts refreshes the shared pacing timestamp N times.  A call under a
persistent 500-error oracle with 2 retries makes 2 attempts but performs
exactly one pacing refresh. -/
theorem getQuote_pacing_not_per_attempt :
    (getQuote oracleServerErr 1 2 0).reqAmounts.length = 2 ∧
    (getQuote oracleServerErr 1 2 0).pacingUpdates = 1 ∧
    (getQuote oracleServerErr 1 2 0).pacingUpdates ≠
      (getQuote oracleServerErr 1 2 0).reqAmounts.length := by
  decide

/-- C7 (amended): every `getQuote` invocation refreshes the shared pacing
timestamp exactly once — before the first attempt — regardless of how
many network attempts its retry loop makes. -/
theorem getQuote_pacing_once_per_call (oracle : Oracle) (amount : ℤ)
    (retries idx : ℕ) :
    (getQuote oracle amount retries idx).pacingUpdates = 1 := by
  simp [getQuote, getQuoteGo_pacingUpdates]

/-- C5 (counterexample): the claim says a NoRoute-class (HTTP 400)
response surfaces immediately, with no second request for the identical
amount.  Under a persistent no-route oracle, `getQuote` with the default
3 retries sends the same raw amount three times before the failure
reaches the caller. -/
theorem getQuote_resends_noroute_amount :
    (getQuote oracleNoRoute 1000 3 0).reqAmounts = [1000, 1000, 1000] ∧
    (getQuote oracleNoRoute 1000 3 0).result =
      .error (.quoteError (some 400)
        (some "ROUTE_PLAN_DOES_NOT_CONSUME_ALL_THE_AMOUNT")
        "Route plan does not consume all the amount") :=
  ⟨rfl, rfl⟩

/-- C5 (amended): a NoRoute-class (HTTP 400) response is retried exactly
like any other non-rate-limit error: the Quote Client re-sends the same
raw amount once per configured retry (with no backoff wait) and only
then surfaces the failure to the caller. -/
theorem getQuote_noroute_retried_then_surfaced (oracle : Oracle)
    (ec : Option String) (msg : String) (amount : ℤ) (retries idx : ℕ)
    (hor : ∀ i, oracle i = .failure (some 400) ec msg)
    (hr : 1 ≤ retries) :
    (getQuote oracle amount retries idx).reqAmounts =
      List.replicate retries amount ∧
    (getQuote oracle amount retries idx).result =
      .error (.quoteError (some 400) ec msg) ∧
    (getQuote oracle amount retries idx).waits = [] := by
  obtain ⟨n, rfl⟩ : ∃ n, retries = n + 1 := ⟨retries - 1, by omega⟩
  have h := getQuoteGo_const_failure oracle 400 ec msg amount (n + 1)
    (by norm_num) hor n idx
  refine ⟨?_, ?_, ?_⟩ <;> simp [getQuote, h]

/-- C5 witness: the amended theorem applied to the concrete no-route
oracle with 2 retries. -/
theorem getQuote_noroute_retried_then_surfaced_witness :
    (getQuote oracleNoRoute 7 2 5).reqAmounts = List.replicate 2 7 ∧
    (getQuote oracleNoRoute 7 2 5).result =
      .error (.quoteError (some 400)
        (some "ROUTE_PLAN_DOES_NOT_CONSUME_ALL_THE_AMOUNT")
        "Route plan does not consume all the amount") ∧
    (getQuote oracleNoRoute 7 2 5).waits = [] :=
  getQuote_noroute_retried_then_surfaced oracleNoRoute
    (some "ROUTE_PLAN_DOES_NOT_CONSUME_ALL_THE_AMOUNT")
    "Route plan does not consume all the amount" 7 2 5
    (fun _ => rfl) (by norm_num)

/-- C8 (counterexample): the claim has three consecutive 429 responses
followed by a success yield the success after 3 retries.  With the
source's default retry budget of 3 (line 429), the third 429 lands on the
final attempt and RateLimited surfaces; the success is never seen. -/
theorem getQuote_three_429_exhaust_default_retries :
    (getQuote oracle429x3 5 3 0).result =
      .error (.quoteError (some 429) none "Too many requests") ∧
    (getQuote oracle429x3 5 3 0).reqAmounts.length = 3 :=
  ⟨rfl, rfl⟩

/-- C8 (amended): with a retry budget of at least four — here four —
three consecutive 429 responses followed by a success yield exactly three
backoff retries with strictly increasing, per-attempt-doubling waits
before the success is returned; with the source's default budget of
three, the third 429 exhausts the retries and RateLimited surfaces. -/
theorem getQuote_backoff_three_429_then_success (oracle : Oracle)
    (idx : ℕ) (amount : ℤ) (q : UltraQuote)
    (c1 c2 c3 : Option String) (m1 m2 m3 : String)
    (h1 : oracle idx = .failure (some 429) c1 m1)
    (h2 : oracle (idx + 1) = .failure (some 429) c2 m2)
    (h3 : oracle (idx + 2) = .failure (some 429) c3 m3)
    (h4 : oracle (idx + 3) = .success q) :
    (getQuote oracle amount 4 idx).result = .ok (some (normalizeQuote q)) ∧
    (getQuote oracle amount 4 idx).reqAmounts =
      List.replicate 4 amount ∧
    (getQuote oracle amount 4 idx).waits =
      [RATE_LIMIT_RETRY_DELAY, RATE_LIMIT_RETRY_DELAY * 2,
        RATE_LIMIT_RETRY_DELAY * 4] ∧
    List.Chain' (· < ·) (getQuote oracle amount 4 idx).waits ∧
    (getQuote oracle amount 3 idx).result =
      .error (.quoteError (some 429) c3 m3) := by
  have h2' : oracle (idx + 1) = .failure (some 429) c2 m2 := h2
  have h3' : oracle (idx + 1 + 1) = .failure (some 429) c3 m3 := h3
  have h4' : oracle (idx + 1 + 1 + 1) = .success q := h4
  refine ⟨?_, ?_, ?_, ?_, ?_⟩ <;>
    simp [getQuote, getQuoteGo, h1, h2', h3', h4', RATE_LIMIT_RETRY_DELAY,
      List.replicate, List.chain'_cons] <;>
    norm_num

/-- C8 witness: the amended theorem applied to the concrete
three-429s-then-success oracle. -/
theorem getQuote_backoff_three_429_then_success_witness :
    (getQuote oracle429x3 5 4 0).result =
      .ok (some (normalizeQuote ⟨1, 2, none, none⟩)) ∧
    (getQuote oracle429x3 5 4 0).reqAmounts = List.replicate 4 5 ∧
    (getQuote oracle429x3 5 4 0).waits =
      [RATE_LIMIT_RETRY_DELAY, RATE_LIMIT_RETRY_DELAY * 2,
        RATE_LIMIT_RETRY_DELAY * 4] ∧
    List.Chain' (· < ·) (getQuote oracle429x3 5 4 0).waits ∧
    (getQuote oracle429x3 5 3 0).result =
      .error (.quoteError (some 429) none "Too many requests") :=
  getQuote_backoff_three_429_then_success oracle429x3 0 5 ⟨1, 2, none, none⟩
    none none none "Too many requests" "Too many requests"
    "Too many requests" rfl rfl rfl rfl

/-- Helper: a ladder entry's catch always hands control back to the loop
with no exception in flight. -/
theorem processEntry_snd (oracle : Oracle) (isBuy : Bool)
    (inputDecimals outputDecimals quoteInputDecimals : ℕ)
    (st : RunState) (usd : ℚ) :
    (processEntry oracle isBuy inputDecimals outputDecimals
      quoteInputDecimals st usd).2 = none := by
  unfold processEntry
  split <;> rfl

/-- Helper: the per-size loop processes every ladder entry and finishes
with no exception in flight. -/
theorem runLadder_snd (oracle : Oracle) (isBuy : Bool)
    (inputDecimals outputDecimals quoteInputDecimals : ℕ) :
    ∀ (l : List ℚ) (st : RunState),
      (runLadder oracle isBuy inputDecimals outputDecimals
        quoteInputDecimals st l).2 = none := by
  intro l
  induction l with
  | nil => intro st; rfl
  | cons usd rest ih =>
    intro st
    have h := processEntry_snd oracle isBuy inputDecimals outputDecimals
      quoteInputDecimals st usd
    rcases hpe : processEntry oracle isBuy inputDecimals outputDecimals
      quoteInputDecimals st usd with ⟨st', o⟩
    rw [hpe] at h
    simp only at h
    subst h
    simp only [runLadder, hpe]
    exact ih st'

/-- C1: for every direction, every decimals resolution and every oracle
behaviour, the depth calculation returns normally — the result always
carries a (possibly empty) points list and errors list and no exception
escapes — and every single ladder entry hands control back to the loop
regardless of how its quote attempts failed, so a failed entry never
aborts the run. -/
theorem calc_always_returns (oracle : Oracle)
    (inputDecimals outputDecimals : ℕ) (isBuy : Bool) :
    (calculateLiquidityDepth oracle inputDecimals outputDecimals
      isBuy).thrown = none ∧
    ∀ (quoteInputDecimals : ℕ) (st : RunState) (usd : ℚ),
      (processEntry oracle isBuy inputDecimals outputDecimals
        quoteInputDecimals st usd).2 = none := by
  constructor
  · unfold calculateLiquidityDepth
    have h := runLadder_snd oracle isBuy inputDecimals outputDecimals
      (if isBuy then outputDecimals else inputDecimals) usdTradeSizes
      (baselinePhase oracle isBuy inputDecimals outputDecimals
        (if isBuy then outputDecimals else inputDecimals)
        (if isBuy then initialState
          else reverseEstimate oracle inputDecimals outputDecimals
            initialState))
    rcases hrl : runLadder oracle isBuy inputDecimals outputDecimals
        (if isBuy then outputDecimals else inputDecimals)
        (baselinePhase oracle isBuy inputDecimals outputDecimals
          (if isBuy then outputDecimals else inputDecimals)
          (if isBuy then initialState
            else reverseEstimate oracle inputDecimals outputDecimals
              initialState)) usdTradeSizes with ⟨st', o⟩
    rw [hrl] at h
    simp only at h
    subst h
    simp only [hrl]
  · intro quoteInputDecimals st usd
    exact processEntry_snd oracle isBuy inputDecimals outputDecimals
      quoteInputDecimals st usd

/-- Helper: a point passing the assembler's validity check has a
positive input amount. -/
theorem validForCumulative_amount_pos {p : DepthPoint}
    (h : validForCumulative p = true) : 0 < p.amount := by
  simp only [validForCumulative, Bool.and_eq_true, decide_eq_true_eq] at h
  exact h.1

/-- Helper: the cumulative pass decorates the sorted points in place,
changing neither their content nor their order. -/
theorem assembleGo_map_point :
    ∀ (l : List DepthPoint) (cum cumOut prevC prevO : ℚ),
      (assembleGo cum cumOut prevC prevO l).map (fun a => a.point) = l := by
  intro l
  induction l with
  | nil => intro cum cumOut prevC prevO; rfl
  | cons p rest ih =>
    intro cum cumOut prevC prevO
    cases hv : validForCumulative p <;> simp [assembleGo, hv, ih]

/-- Helper: as long as the inherited values track the running sums — as
they do from the start — the assigned cumulative column equals the
spec-side running totals. -/
theorem assembleGo_cumulative :
    ∀ (l : List DepthPoint) (cum cumOut : ℚ),
      (assembleGo cum cumOut cum cumOut l).map
        (fun a => a.cumulativeLiquidity) = specRunningTotals cum l := by
  intro l
  induction l with
  | nil => intro cum cumOut; rfl
  | cons p rest ih =>
    intro cum cumOut
    cases hv : validForCumulative p <;>
      simp [assembleGo, specRunningTotals, hv, ih]

/-- Helper: the spec-side running totals never drop below their seed. -/
theorem specRunningTotals_head_le (c : ℚ) (l : List DepthPoint) :
    ∀ y ∈ (specRunningTotals c l).head?, c ≤ y := by
  cases l with
  | nil => intro y hy; simp [specRunningTotals] at hy
  | cons p rest =>
    intro y hy
    simp only [specRunningTotals, List.head?_cons, Option.mem_def,
      Option.some.injEq] at hy
    subst hy
    cases hv : validForCumulative p
    · simp [hv]
    · simp only [hv, if_pos]
      have := validForCumulative_amount_pos hv
      linarith

/-- Helper: the spec-side running totals are non-decreasing. -/
theorem specRunningTotals_chain (c : ℚ) (l : List DepthPoint) :
    List.Chain' (· ≤ ·) (specRunningTotals c l) := by
  induction l generalizing c with
  | nil => simp [specRunningTotals]
  | cons p rest ih =>
    simp only [specRunningTotals]
    rw [List.chain'_cons']
    exact ⟨specRunningTotals_head_le _ _, ih _⟩

/-- Helper: the assembler's comparator is transitive. -/
theorem pointLE_trans : ∀ a b c : DepthPoint,
    pointLE a b = true → pointLE b c = true → pointLE a c = true := by
  intro a b c hab hbc
  simp only [pointLE, decide_eq_true_eq] at hab hbc ⊢
  exact le_trans hab hbc

/-- Helper: the assembler's comparator is total. -/
theorem pointLE_total : ∀ a b : DepthPoint,
    (pointLE a b || pointLE b a) = true := by
  intro a b
  simp only [pointLE, Bool.or_eq_true, decide_eq_true_eq]
  exact le_total _ _

/-- C3 (amended): for every point collection the assembled result is
sorted in non-decreasing `tradeUsdValue` order (ties preserved in
insertion order by the stable sort), `cumulativeInputLiquidity` is
non-decreasing across the sequence, and the cumulative column equals the
running totals over the valid points only — a point failing the validity
check inherits the previous cumulative value (0 for the first point). -/
theorem assemble_sorted_nondecreasing_running_totals
    (pts : List DepthPoint) :
    List.Chain' (· ≤ ·)
      ((assemble pts).map (fun a => a.point.tradeUsdValue)) ∧
    List.Chain' (· ≤ ·)
      ((assemble pts).map (fun a => a.cumulativeLiquidity)) ∧
    (assemble pts).map (fun a => a.cumulativeLiquidity) =
      specRunningTotals 0 (pts.mergeSort pointLE) := by
  have hcum : (assemble pts).map (fun a => a.cumulativeLiquidity) =
      specRunningTotals 0 (pts.mergeSort pointLE) := by
    unfold assemble
    exact assembleGo_cumulative _ 0 0
  refine ⟨?_, ?_, hcum⟩
  · have hp : (pts.mergeSort pointLE).Pairwise
        (fun a b => pointLE a b = true) :=
      List.sorted_mergeSort pointLE_trans pointLE_total pts
    have hmap : (assemble pts).map (fun a => a.point.tradeUsdValue) =
        (pts.mergeSort pointLE).map (fun p => p.tradeUsdValue) := by
      have h1 : ((assemble pts).map (fun a => a.point)).map
          (fun p => p.tradeUsdValue) =
          (pts.mergeSort pointLE).map (fun p => p.tradeUsdValue) := by
        unfold assemble
        rw [assembleGo_map_point]
      rw [List.map_map] at h1
      exact h1
    rw [hmap]
    have hpair : List.Pairwise (fun a b : ℚ => a ≤ b)
        ((pts.mergeSort pointLE).map (fun p => p.tradeUsdValue)) := by
      rw [List.pairwise_map]
      exact hp.imp (by
        intro a b h
        simpa [pointLE, decide_eq_true_eq] using h)
    exact hpair.chain'
  · rw [hcum]
    exact specRunningTotals_chain 0 _

/-- Helper: one overflow shrink probe only adds well-formed points, only
issues calls within the integer ceiling (the guard of line 802), and
records no error. -/
theorem overflowTryOne_extend (oracle : Oracle) (isBuy : Bool)
    (dIn dOut qdec : ℕ) (smaller : ℤ) (st : RunState) :
    (∀ p ∈ (overflowTryOne oracle isBuy dIn dOut qdec smaller
        st).1.depthPoints, p ∈ st.depthPoints ∨ goodPoint p) ∧
    (∀ c ∈ (overflowTryOne oracle isBuy dIn dOut qdec smaller st).1.calls,
      c ∈ st.calls ∨ safeCall c) ∧
    (overflowTryOne oracle isBuy dIn dOut qdec smaller st).1.errors =
      st.errors := by
  refine ⟨?_, ?_, ?_⟩
  · intro p hp
    unfold overflowTryOne at hp
    dsimp only at hp
    repeat' split at hp
    all_goals try exact Or.inl hp
    all_goals try exact Or.inl (by simpa using hp)
    all_goals
      rename_i hio hpr hdup
      simp only [pushPoint_depthPoints, promoteBaseline_depthPoints,
        recordCall_depthPoints, List.mem_append, List.mem_singleton] at hp
      rcases hp with hp | hp
      · exact Or.inl hp
      · subst hp
        exact Or.inr ⟨impactAgainst_nonneg _ _, hio.1, hio.2, hpr.1,
          le_of_lt hpr.2⟩
  · intro c hc
    unfold overflowTryOne at hc
    dsimp only at hc
    split at hc
    · exact Or.inl hc
    · rename_i hrange
      rw [not_or, not_le, not_lt] at hrange
      repeat' split at hc
      all_goals
        simp only [pushPoint_calls, promoteBaseline_calls,
          recordCall_calls, List.mem_append, List.mem_singleton] at hc
        rcases hc with hc | hc
        · exact Or.inl hc
        · subst hc
          exact Or.inr ⟨hrange.1, hrange.2⟩
  · unfold overflowTryOne
    dsimp only
    repeat' split
    all_goals (first | rfl | simp)

/-- Helper: chaining two only-adds-`P`-elements extensions. -/
theorem mem_extend_trans {α : Type} {P : α → Prop} {l₁ l₂ l₃ : List α}
    (h12 : ∀ x ∈ l₂, x ∈ l₁ ∨ P x) (h23 : ∀ x ∈ l₃, x ∈ l₂ ∨ P x) :
    ∀ x ∈ l₃, x ∈ l₁ ∨ P x := by
  intro x hx
  rcases h23 x hx with h | h
  · exact h12 x h
  · exact Or.inr h

/-- Helper: the whole overflow shrink loop only adds well-formed points,
only issues calls within the integer ceiling, and records no error. -/
theorem overflowLoop_extend (oracle : Oracle) (isBuy : Bool)
    (dIn dOut qdec : ℕ) :
    ∀ (l : List ℤ) (st : RunState),
      (∀ p ∈ (overflowLoop oracle isBuy dIn dOut qdec l st).depthPoints,
        p ∈ st.depthPoints ∨ goodPoint p) ∧
      (∀ c ∈ (overflowLoop oracle isBuy dIn dOut qdec l st).calls,
        c ∈ st.calls ∨ safeCall c) ∧
      (overflowLoop oracle isBuy dIn dOut qdec l st).errors = st.errors := by
  intro l
  induction l with
  | nil =>
    intro st
    exact ⟨fun p hp => Or.inl hp, fun c hc => Or.inl hc, rfl⟩
  | cons smaller rest ih =>
    intro st
    have h1 := overflowTryOne_extend oracle isBuy dIn dOut qdec smaller st
    unfold overflowLoop
    rcases hcase : overflowTryOne oracle isBuy dIn dOut qdec smaller st
      with ⟨st', b⟩
    rw [hcase] at h1
    cases b
    · have h2 := ih st'
      dsimp only
      refine ⟨mem_extend_trans h1.1 h2.1, mem_extend_trans h1.2.1 h2.2.1,
        ?_⟩
      rw [h2.2.2]
      exact h1.2.2
    · exact ⟨h1.1, h1.2.1, h1.2.2⟩

/-- Helper: the overflow branch only adds well-formed points, only
issues calls within the integer ceiling, and appends exactly the
overflow ProbeError for the rejected target. -/
theorem overflowBranch_extend (oracle : Oracle) (isBuy : Bool)
    (dIn dOut qdec : ℕ) (usd : ℚ) (st : RunState) :
    (∀ p ∈ (overflowBranch oracle isBuy dIn dOut qdec usd st).depthPoints,
      p ∈ st.depthPoints ∨ goodPoint p) ∧
    (∀ c ∈ (overflowBranch oracle isBuy dIn dOut qdec usd st).calls,
      c ∈ st.calls ∨ safeCall c) ∧
    (overflowBranch oracle isBuy dIn dOut qdec usd st).errors =
      st.errors ++ [⟨usd, overflowErrorMsg, none, none⟩] := by
  unfold overflowBranch
  dsimp only
  refine ⟨fun p hp => ?_, fun c hc => ?_, ?_⟩
  · simp only [pushError_depthPoints] at hp
    exact (overflowLoop_extend oracle isBuy dIn dOut qdec _ st).1 p hp
  · simp only [pushError_calls] at hc
    exact (overflowLoop_extend oracle isBuy dIn dOut qdec _ st).2.1 c hc
  · have herr : ∀ (l : List ℤ) (s : RunState),
        (overflowLoop oracle isBuy dIn dOut qdec l s).errors = s.errors :=
      fun l s => (overflowLoop_extend oracle isBuy dIn dOut qdec l s).2.2
    simp only [pushError_errors, herr]

/-- Helper: the main-path price impact is never negative. -/
theorem mainPriceImpact_nonneg (bp : Option ℚ) (inR outR : ℚ)
    (pio : Option ℚ) : 0 ≤ mainPriceImpact bp inR outR pio := by
  cases pio with
  | some v => exact jsAbs_nonneg _
  | none =>
    show 0 ≤ (if bpPos bp then
      let expectedOutput := inR * jsNum bp
      if 0 < expectedOutput ∧ 0 < outR then
        jsAbs ((expectedOutput - outR) / expectedOutput * 100)
      else jsAbs ((outR / inR - jsNum bp) / jsNum bp * 100)
    else 0)
    split
    · dsimp only
      split
      · exact jsAbs_nonneg _
      · exact jsAbs_nonneg _
    · exact le_refl 0

/-- Helper: the main-ladder success path only adds a well-formed point
and leaves errors and calls unchanged. -/
theorem mainSuccess_extend (isBuy : Bool) (dIn dOut : ℕ) (usd : ℚ)
    (q : NormQuote) (st : RunState) :
    (∀ p ∈ (mainSuccess isBuy dIn dOut usd q st).depthPoints,
      p ∈ st.depthPoints ∨ goodPoint p) ∧
    (mainSuccess isBuy dIn dOut usd q st).errors = st.errors ∧
    (mainSuccess isBuy dIn dOut usd q st).calls = st.calls := by
  refine ⟨?_, ?_, ?_⟩
  · intro p hp
    unfold mainSuccess at hp
    dsimp only at hp
    repeat' split at hp
    all_goals try exact Or.inl hp
    all_goals
      simp only [not_or, not_le, not_lt] at *
      simp only [pushPoint_depthPoints, promoteBaseline_depthPoints,
        List.mem_append, List.mem_singleton] at hp
      rcases hp with hp | hp
      · exact Or.inl hp
      · subst hp
        refine Or.inr ⟨mainPriceImpact_nonneg _ _ _ _, ?_, ?_, ?_, ?_⟩ <;>
          solve_by_elim [And.left, And.right]
  · unfold mainSuccess
    dsimp only
    repeat' split
    all_goals (first | rfl | simp)
  · unfold mainSuccess
    dsimp only
    repeat' split
    all_goals (first | rfl | simp)

set_option maxHeartbeats 1600000 in
/-- Helper: one descending-ladder probe only adds well-formed points,
never touches the baseline price or the errors, and issues exactly one
call when the candidate's raw conversion is positive. -/
theorem descendTryOne_extend (oracle : Oracle) (isBuy : Bool)
    (dIn dOut qdec : ℕ) (usd : ℚ) (smaller : ℤ)
    (acc : RunState × ℤ × Bool) :
    (∀ p ∈ (descendTryOne oracle isBuy dIn dOut qdec usd acc
        smaller).1.depthPoints, p ∈ acc.1.depthPoints ∨ goodPoint p) ∧
    (descendTryOne oracle isBuy dIn dOut qdec usd acc
      smaller).1.baselinePrice = acc.1.baselinePrice ∧
    (descendTryOne oracle isBuy dIn dOut qdec usd acc
      smaller).1.errors = acc.1.errors ∧
    (descendTryOne oracle isBuy dIn dOut qdec usd acc
        smaller).1.calls.length = acc.1.calls.length +
      (if 0 < usdToRawAmount isBuy acc.1.baselinePrice qdec (smaller : ℚ)
        then 1 else 0) := by
  refine ⟨?_, ?_, ?_, ?_⟩
  · intro p hp
    unfold descendTryOne at hp
    dsimp only at hp
    repeat' split at hp
    all_goals try exact Or.inl hp
    all_goals try exact Or.inl (by simpa using hp)
    all_goals
      simp only [pushPoint_depthPoints, recordCall_depthPoints,
        List.mem_append, List.mem_singleton] at hp
      rcases hp with hp | hp
      · exact Or.inl hp
      · subst hp
        refine Or.inr ⟨impactAgainst_nonneg _ _, ?_, ?_, ?_, ?_⟩ <;>
          solve_by_elim [And.left, And.right, le_of_lt]
  · unfold descendTryOne
    dsimp only
    repeat' split
    all_goals (first | rfl | simp)
  · unfold descendTryOne
    dsimp only
    repeat' split
    all_goals (first | rfl | simp)
  · unfold descendTryOne
    dsimp only
    split
    · rename_i hraw
      rw [if_neg (by omega)]
      omega
    · rename_i hraw
      have hpos : 0 < usdToRawAmount isBuy acc.1.baselinePrice qdec
          (smaller : ℚ) := by omega
      rw [if_pos hpos]
      repeat' split
      all_goals simp

/-- Helper: the descending-ladder fold only adds well-formed points,
never touches the baseline price or the errors, and issues exactly one
call per candidate whose raw conversion is positive. -/
theorem descendFold_extend (oracle : Oracle) (isBuy : Bool)
    (dIn dOut qdec : ℕ) (usd : ℚ) :
    ∀ (cands : List ℤ) (acc : RunState × ℤ × Bool),
      (∀ p ∈ (cands.foldl (descendTryOne oracle isBuy dIn dOut qdec usd)
          acc).1.depthPoints, p ∈ acc.1.depthPoints ∨ goodPoint p) ∧
      (cands.foldl (descendTryOne oracle isBuy dIn dOut qdec usd)
        acc).1.baselinePrice = acc.1.baselinePrice ∧
      (cands.foldl (descendTryOne oracle isBuy dIn dOut qdec usd)
        acc).1.errors = acc.1.errors ∧
      (cands.foldl (descendTryOne oracle isBuy dIn dOut qdec usd)
          acc).1.calls.length = acc.1.calls.length +
        cands.countP (fun (c : ℤ) => decide
          (0 < usdToRawAmount isBuy acc.1.baselinePrice qdec (c : ℚ))) := by
  intro cands
  induction cands with
  | nil =>
    intro acc
    exact ⟨fun p hp => Or.inl hp, rfl, rfl, by simp⟩
  | cons c cs ih =>
    intro acc
    have h1 := descendTryOne_extend oracle isBuy dIn dOut qdec usd c acc
    have h2 := ih (descendTryOne oracle isBuy dIn dOut qdec usd acc c)
    simp only [List.foldl_cons]
    refine ⟨mem_extend_trans h1.1 h2.1, ?_, ?_, ?_⟩
    · rw [h2.2.1, h1.2.1]
    · rw [h2.2.2.1, h1.2.2.1]
    · rw [h2.2.2.2, h1.2.2.2]
      simp only [h1.2.1, List.countP_cons, decide_eq_true_eq]
      omega

set_option maxHeartbeats 1600000 in
/-- Helper: the binary-narrowing loop only adds well-formed points. -/
theorem binarySearchGo_points (oracle : Oracle) (isBuy : Bool)
    (dIn dOut qdec : ℕ) (usd : ℚ) :
    ∀ (fuel : ℕ) (low high : ℚ) (st : RunState),
      ∀ p ∈ (binarySearchGo oracle isBuy dIn dOut qdec usd fuel low high
        st).depthPoints, p ∈ st.depthPoints ∨ goodPoint p := by
  intro fuel
  induction fuel with
  | zero => intro low high st p hp; exact Or.inl hp
  | succ fuel ih =>
    intro low high st p hp
    unfold binarySearchGo at hp
    dsimp only at hp
    repeat' split at hp
    all_goals first
      | exact Or.inl hp
      | exact ih _ _ _ p hp
      | (rcases ih _ _ _ p hp with h | h
         · exact Or.inl (by simpa using h)
         · exact Or.inr h)
      | (rcases ih _ _ _ p hp with h | h
         · simp only [pushPoint_depthPoints, recordCall_depthPoints,
             List.mem_append, List.mem_singleton] at h
           rcases h with h | h
           · exact Or.inl h
           · subst h
             refine Or.inr ⟨impactAgainst_nonneg _ _, ?_, ?_, ?_, ?_⟩ <;>
               solve_by_elim [And.left, And.right, le_of_lt]
         · exact Or.inr h)

/-- Helper: the binary-narrowing phase only adds well-formed points. -/
theorem binaryPhase_points (oracle : Oracle) (isBuy : Bool)
    (dIn dOut qdec : ℕ) (usd : ℚ) (maxWorking : ℤ) (st : RunState) :
    ∀ p ∈ (binaryPhase oracle isBuy dIn dOut qdec usd maxWorking
      st).depthPoints, p ∈ st.depthPoints ∨ goodPoint p := by
  unfold binaryPhase
  exact binarySearchGo_points oracle isBuy dIn dOut qdec usd _ _ _ st

/-- Helper: a ladder entry's catch only adds well-formed points. -/
theorem entryCatch_points (oracle : Oracle) (isBuy : Bool)
    (dIn dOut qdec : ℕ) (usd : ℚ) (e : JsErr) (st : RunState) :
    ∀ p ∈ (entryCatch oracle isBuy dIn dOut qdec usd e st).depthPoints,
      p ∈ st.depthPoints ∨ goodPoint p := by
  unfold entryCatch
  dsimp only
  split
  · have hd := descendFold_extend oracle isBuy dIn dOut qdec usd
      (smallerAmountsFor usd) (st, 0, false)
    split
    · intro p hp
      simp only [pushError_depthPoints] at hp
      exact mem_extend_trans hd.1
        (binaryPhase_points oracle isBuy dIn dOut qdec usd _ _) p hp
    · intro p hp
      simp only [pushError_depthPoints] at hp
      exact hd.1 p hp
  · intro p hp
    exact Or.inl (by simpa using hp)

/-- Helper: a ladder entry's try body only adds well-formed points. -/
theorem processEntryBody_points (oracle : Oracle) (isBuy : Bool)
    (dIn dOut qdec : ℕ) (usd : ℚ) (st : RunState) :
    ∀ p ∈ (processEntryBody oracle isBuy dIn dOut qdec usd
      st).1.depthPoints, p ∈ st.depthPoints ∨ goodPoint p := by
  intro p hp
  unfold processEntryBody at hp
  dsimp only at hp
  split at hp
  · exact (overflowBranch_extend oracle isBuy dIn dOut qdec usd st).1 p hp
  · split at hp
    · exact Or.inl (by simpa using hp)
    · split at hp
      · exact Or.inl (by simpa using hp)
      · exact Or.inl (by simpa using hp)
      · rcases (mainSuccess_extend isBuy dIn dOut usd _ _).1 p hp with h | h
        · exact Or.inl (by simpa using h)
        · exact Or.inr h

/-- Helper: a whole ladder entry only adds well-formed points. -/
theorem processEntry_points (oracle : Oracle) (isBuy : Bool)
    (dIn dOut qdec : ℕ) (st : RunState) (usd : ℚ) :
    ∀ p ∈ (processEntry oracle isBuy dIn dOut qdec st usd).1.depthPoints,
      p ∈ st.depthPoints ∨ goodPoint p := by
  intro p hp
  unfold processEntry at hp
  have hb := processEntryBody_points oracle isBuy dIn dOut qdec usd st
  rcases hcase : processEntryBody oracle isBuy dIn dOut qdec usd st
    with ⟨st', o⟩
  rw [hcase] at hb hp
  cases o
  · exact hb p hp
  · exact mem_extend_trans hb
      (entryCatch_points oracle isBuy dIn dOut qdec usd _ st') p hp

/-- Helper: the per-size loop only adds well-formed points. -/
theorem runLadder_points (oracle : Oracle) (isBuy : Bool)
    (dIn dOut qdec : ℕ) :
    ∀ (l : List ℚ) (st : RunState),
      ∀ p ∈ (runLadder oracle isBuy dIn dOut qdec st l).1.depthPoints,
        p ∈ st.depthPoints ∨ goodPoint p := by
  intro l
  induction l with
  | nil => intro st p hp; exact Or.inl hp
  | cons usd rest ih =>
    intro st p hp
    have hpe := processEntry_points oracle isBuy dIn dOut qdec st usd
    have hsnd := processEntry_snd oracle isBuy dIn dOut qdec st usd
    rcases hcase : processEntry oracle isBuy dIn dOut qdec st usd
      with ⟨st', o⟩
    rw [hcase] at hpe hsnd
    simp only at hsnd
    subst hsnd
    simp only [runLadder, hcase] at hp
    exact mem_extend_trans hpe (ih st') p hp

/-- Helper: the reverse probe records no depth point. -/
theorem reverseEstimate_depthPoints (oracle : Oracle) (dIn dOut : ℕ)
    (st : RunState) :
    (reverseEstimate oracle dIn dOut st).depthPoints = st.depthPoints := by
  unfold reverseEstimate
  dsimp only
  repeat' split
  all_goals (first | rfl | simp)

/-- Helper: a baseline trial records no depth point. -/
theorem baselineTrial_depthPoints (oracle : Oracle) (isBuy : Bool)
    (dIn dOut qdec : ℕ) (u : ℚ) (st : RunState) :
    (baselineTrial oracle isBuy dIn dOut qdec u st).depthPoints =
      st.depthPoints := by
  unfold baselineTrial baselineTrialBody
  dsimp only
  repeat' split
  all_goals (first | rfl | simp)

/-- Helper: the baseline phase records no depth point. -/
theorem baselinePhase_depthPoints (oracle : Oracle) (isBuy : Bool)
    (dIn dOut qdec : ℕ) (st : RunState) :
    (baselinePhase oracle isBuy dIn dOut qdec st).depthPoints =
      st.depthPoints := by
  unfold baselinePhase
  split
  · rfl
  · simp only [List.foldl_cons, List.foldl_nil]
    rw [baselineTrial_depthPoints, baselineTrial_depthPoints,
      baselineTrial_depthPoints]

/-- Helper: every point ever appended during a run is well-formed. -/
theorem calc_rawPoints_good (oracle : Oracle) (dIn dOut : ℕ)
    (isBuy : Bool) :
    ∀ p ∈ (calculateLiquidityDepth oracle dIn dOut isBuy).rawPoints,
      goodPoint p := by
  intro p hp
  unfold calculateLiquidityDepth at hp
  dsimp only at hp
  have hbase : (baselinePhase oracle isBuy dIn dOut
      (if isBuy then dOut else dIn)
      (if isBuy then initialState
        else reverseEstimate oracle dIn dOut initialState)).depthPoints =
      ([] : List DepthPoint) := by
    rw [baselinePhase_depthPoints]
    split
    · rfl
    · rw [reverseEstimate_depthPoints]
      rfl
  have hrl := runLadder_points oracle isBuy dIn dOut
    (if isBuy then dOut else dIn) usdTradeSizes
    (baselinePhase oracle isBuy dIn dOut (if isBuy then dOut else dIn)
      (if isBuy then initialState
        else reverseEstimate oracle dIn dOut initialState))
  rcases hcase : runLadder oracle isBuy dIn dOut
      (if isBuy then dOut else dIn)
      (baselinePhase oracle isBuy dIn dOut (if isBuy then dOut else dIn)
        (if isBuy then initialState
          else reverseEstimate oracle dIn dOut initialState))
      usdTradeSizes with ⟨st', o⟩
  rw [hcase] at hrl
  rw [hbase] at hrl
  cases o <;> simp only [hcase] at hp <;>
    rcases hrl p hp with h | h <;> first | simp at h | exact h

/-- C4: every depth point recorded during a run — by the main ladder
path, the overflow shrink recovery, the descending-ladder recovery or the
binary narrowing — carries a nonnegative `priceImpactPct`: each push site
wraps its impact figure in `Math.abs`, including the main path's
preference for the oracle-supplied (possibly negative) `priceImpactPct`. -/
theorem calc_priceImpact_nonneg (oracle : Oracle) (dIn dOut : ℕ)
    (isBuy : Bool) :
    ∀ p ∈ (calculateLiquidityDepth oracle dIn dOut isBuy).rawPoints,
      0 ≤ p.priceImpact :=
  fun p hp => (calc_rawPoints_good oracle dIn dOut isBuy p hp).1

/-- C10 (amended): every depth point ever appended during a run has
positive input and output amounts and an execution price in
`(0, 10^10]` — the main-path guard admits `price = 10^10` exactly, so the
strict bound `price < 10^10` of the claim fails at the right endpoint —
and consequently passes the assembler's validity check, making the
invalid-point branch unreachable for points produced within the same
run. -/
theorem calc_rawPoints_valid (oracle : Oracle) (dIn dOut : ℕ)
    (isBuy : Bool) :
    ∀ p ∈ (calculateLiquidityDepth oracle dIn dOut isBuy).rawPoints,
      0 < p.amount ∧ 0 < p.outputAmount ∧ 0 < p.price ∧
        p.price ≤ 10 ^ 10 ∧ validForCumulative p = true := by
  intro p hp
  have h := calc_rawPoints_good oracle dIn dOut isBuy p hp
  refine ⟨h.2.1, h.2.2.1, h.2.2.2.1, h.2.2.2.2, ?_⟩
  simp only [validForCumulative, Bool.and_eq_true, decide_eq_true_eq]
  exact ⟨h.2.1, h.2.2.2.1⟩

/-- C2: a ladder entry whose converted raw amount exceeds
`Number.MAX_SAFE_INTEGER` is diverted to the overflow branch before any
network call — the entry equals the overflow branch with no exception in
flight, an `AmountOverflow`-class ProbeError is recorded for the target,
and every Quote-Client call added by the shrink-and-retry recovery uses a
raw amount that is positive, within the integer ceiling, and in
particular never the overflowing raw amount itself. -/
theorem processEntry_overflow_detected (oracle : Oracle) (isBuy : Bool)
    (dIn dOut qdec : ℕ) (usd : ℚ) (st : RunState)
    (h : MAX_SAFE_INTEGER <
      usdToRawAmount isBuy st.baselinePrice qdec usd) :
    processEntry oracle isBuy dIn dOut qdec st usd =
      (overflowBranch oracle isBuy dIn dOut qdec usd st, none) ∧
    (processEntry oracle isBuy dIn dOut qdec st usd).1.errors =
      st.errors ++ [⟨usd, overflowErrorMsg, none, none⟩] ∧
    ∀ c ∈ (processEntry oracle isBuy dIn dOut qdec st usd).1.calls,
      c ∈ st.calls ∨ (0 < c.amount ∧ c.amount ≤ MAX_SAFE_INTEGER ∧
        c.amount ≠ usdToRawAmount isBuy st.baselinePrice qdec usd) := by
  have hpe : processEntry oracle isBuy dIn dOut qdec st usd =
      (overflowBranch oracle isBuy dIn dOut qdec usd st, none) := by
    unfold processEntry processEntryBody
    dsimp only
    rw [if_pos h]
  have hb := overflowBranch_extend oracle isBuy dIn dOut qdec usd st
  refine ⟨hpe, ?_, ?_⟩
  · rw [hpe]
    exact hb.2.2
  · intro c hc
    rw [hpe] at hc
    rcases hb.2.1 c hc with hold | hsafe
    · exact Or.inl hold
    · refine Or.inr ⟨hsafe.1, hsafe.2, fun heq => ?_⟩
      have hle := hsafe.2
      rw [heq] at hle
      exact absurd h (not_lt.mpr hle)

/-- C6 (amended): the descending-ladder phase does not stop at the first
successful candidate — the source's loop deliberately has no `break` — so
the number of Quote-Client calls it issues equals the number of
candidates whose raw conversion is positive, independent of which
candidates succeed; the baseline price is never modified by the phase. -/
theorem descend_probes_every_candidate (oracle : Oracle) (isBuy : Bool)
    (dIn dOut qdec : ℕ) (usd : ℚ) (cands : List ℤ) (st : RunState) :
    (descendPhase oracle isBuy dIn dOut qdec usd cands
        st).1.calls.length = st.calls.length +
      cands.countP (fun (c : ℤ) => decide
        (0 < usdToRawAmount isBuy st.baselinePrice qdec (c : ℚ))) ∧
    (descendPhase oracle isBuy dIn dOut qdec usd cands
      st).1.baselinePrice = st.baselinePrice := by
  have h := descendFold_extend oracle isBuy dIn dOut qdec usd cands
    (st, 0, false)
  exact ⟨h.2.2.2, h.2.1⟩

unseal Rat.add Rat.sub Rat.mul Rat.inv List.merge List.mergeSort

/-- C3 (counterexample): the claim asserts that the assembled sequence of
every non-empty point collection is strictly sorted by `tradeUsdValue`.
On two points tied at $500 the assembled sequence keeps both, so it is
not strictly sorted. -/
theorem assemble_ties_not_strictly_sorted :
    ¬ List.Chain' (· < ·)
      ((assemble tiedPoints).map (fun a => a.point.tradeUsdValue)) := by
  intro h
  have hEq : (assemble tiedPoints).map (fun a => a.point.tradeUsdValue) =
      [500, 500] := by rfl
  rw [hEq, List.chain'_cons] at h
  exact absurd h.1 (lt_irrefl _)

/-- Witness for C4: the all-unit-quotes buy run with decimals 0 records
the $500 point `⟨1, 1, 1, 0, 0, 500⟩`, and its price impact is
nonnegative. -/
theorem calc_priceImpact_nonneg_witness :
    (⟨1, 1, 1, 0, 0, 500⟩ : DepthPoint) ∈
      (calculateLiquidityDepth oracleUnit 0 0 true).rawPoints ∧
    0 ≤ (⟨1, 1, 1, 0, 0, 500⟩ : DepthPoint).priceImpact :=
  ⟨by decide, calc_priceImpact_nonneg oracleUnit 0 0 true _ (by decide)⟩

/-- Witness for C10: the all-unit-quotes buy run with decimals 0 records
the $1000 point `⟨1, 1, 1, 0, 0, 1000⟩`, and it passes the assembler's
validity check. -/
theorem calc_rawPoints_valid_witness :
    (⟨1, 1, 1, 0, 0, 1000⟩ : DepthPoint) ∈
      (calculateLiquidityDepth oracleUnit 0 0 true).rawPoints ∧
    validForCumulative (⟨1, 1, 1, 0, 0, 1000⟩ : DepthPoint) = true :=
  ⟨by decide,
    (calc_rawPoints_valid oracleUnit 0 0 true _ (by decide)).2.2.2.2⟩

/-- C10 (counterexample to the strict bound): on the sell run whose
first main-ladder quote answers `inAmount 1`, `outAmount 10^10` with
decimals 0, the recorded point has execution price exactly `10^10` — the
main-path guard of line 983 rejects only `price > 1e10`, so the claim's
strict `price < 1e10` fails at the right endpoint. -/
theorem calc_price_ceiling_attained :
    ¬ ∀ p ∈ (calculateLiquidityDepth oracleCeiling 0 0 false).rawPoints,
        p.price < 10 ^ 10 := by
  intro hall
  have hmem : (⟨10 ^ 10, 1, 10 ^ 10, 0, 0, 500⟩ : DepthPoint) ∈
      (calculateLiquidityDepth oracleCeiling 0 0 false).rawPoints := by
    decide
  exact absurd (hall _ hmem) (lt_irrefl _)

/-- Witness for C2: a buy entry targeting $10^8 with quote-input
decimals 18 converts to the raw amount `10^26 > MAX_SAFE_INTEGER`; the
entry records the overflow error (here starting from the initial state,
whose shrink candidates are all below the $500 floor, so the recovery
issues no call at all). -/
theorem processEntry_overflow_detected_witness :
    MAX_SAFE_INTEGER <
      usdToRawAmount true initialState.baselinePrice 18 100000000 ∧
    (processEntry oracleServerErr true 0 0 18 initialState
        100000000).1.errors =
      initialState.errors ++ [⟨100000000, overflowErrorMsg, none, none⟩] ∧
    ∀ c ∈ (processEntry oracleServerErr true 0 0 18 initialState
        100000000).1.calls,
      c ∈ initialState.calls ∨ (0 < c.amount ∧
        c.amount ≤ MAX_SAFE_INTEGER ∧ c.amount ≠
          usdToRawAmount true initialState.baselinePrice 18 100000000) :=
  have h : MAX_SAFE_INTEGER <
      usdToRawAmount true initialState.baselinePrice 18 100000000 := by
    decide
  ⟨h, (processEntry_overflow_detected oracleServerErr true 0 0 18
      100000000 initialState h).2.1,
    (processEntry_overflow_detected oracleServerErr true 0 0 18
      100000000 initialState h).2.2⟩

/-- C6 (counterexample): on a $10M rejected target with every candidate
quoting successfully, the very first descending-ladder candidate
($9.5M) already succeeds — the phase reports a working amount — yet all
16 tier candidates are probed against the network (16 calls, 16 recorded
points), refuting the claim that probing stops after the first
success. -/
theorem descend_no_early_stop :
    (descendPhase oracleUnit true 0 0 0 10000000
        (smallerAmountsFor 10000000) stOneBaseline).2.2 = true ∧
    (descendPhase oracleUnit true 0 0 0 10000000
        (smallerAmountsFor 10000000) stOneBaseline).1.calls.length = 16 ∧
    (descendPhase oracleUnit true 0 0 0 10000000
        (smallerAmountsFor 10000000)
      stOneBaseline).1.depthPoints.length = 16 := by
  refine ⟨by decide, by decide, by decide⟩

/-- C9 (code-bug exhibit): when the very first baseline trial ($100)
returns a valid quote, the trial body stores the computed baseline price
and then raises `ReferenceError: outputToken is not defined` — line 662
reads the undeclared `outputToken` before the `break` of line 663 can
run — so the catch of line 669 swallows the error and the loop still
quotes all three trial amounts instead of terminating at the first valid
one. -/
theorem baseline_break_unreachable :
    (baselineTrialBody oracleUnit true 0 0 0 100
        initialState).1.baselinePrice = some 1 ∧
    (baselineTrialBody oracleUnit true 0 0 0 100 initialState).2 =
      some (JsErr.refError "outputToken is not defined") ∧
    (baselinePhase oracleUnit true 0 0 0 initialState).calls.length
      = 3 := by
  refine ⟨by decide, rfl, by decide⟩

end Depth
